import Mathlib

/-!
Verification development for the JobHuntAI job-search tracker.

The definitions below are a shallow embedding of the repository's core
logic:

* the domain record types from `types.ts`;
* the File Sync Engine of the `App` component (`processFileContent`, the
  change-tracking and auto-save effects, the debounced save);
* the Smart-Entry Reconciler of `ActivityModal` (`handleAutoFill`,
  `handleSave`) together with `App.handleSaveActivity`;
* the roster sort toggle `requestSort`.

JavaScript-specific behaviour is modelled explicitly: absent object
fields are `Option`s, `x || y` on strings treats only `undefined` and
`""` as falsy (arrays, including `[]`, are truthy), `JSON.parse` of the
file text is an oracle input (`FileText`), and property access on a
parsed `null` throws, which is modelled by returning `none`
(the thrown error is caught by the caller, which leaves state alone).
React state updates inside one handler are batched into a single
re-render; an effect re-runs exactly when one of its dependencies
changed since the previous render, which is modelled by `runEffects`
comparing a previous and a current state snapshot.
-/

/-- `ActivityType` from `types.ts`. -/
inductive ActivityType where
  | initiation
  | apply
  | submit
  | interview
  | reference
  | networking
  | offer
  | rejection
  | other
deriving DecidableEq

/-- `OpportunityStatus` from `types.ts`. -/
inductive OpportunityStatus where
  | identified
  | applied
  | interviewing
  | offered
  | rejected
  | withdrawn
  | ghosted
deriving DecidableEq

/-- `Contact` from `types.ts`. -/
structure Contact where
  id : String
  name : String
  role : String
  email : Option String
  phone : Option String
  company : String
  notes : Option String
deriving DecidableEq

/-- `Opportunity` from `types.ts`. -/
structure Opportunity where
  id : String
  position : String
  role : String
  employer : String
  description : Option String
  status : OpportunityStatus
  createdAt : String
  updatedAt : String
deriving DecidableEq

/-- `Activity` from `types.ts`. -/
structure Activity where
  id : String
  opportunityId : String
  title : String
  type : ActivityType
  date : String
  contactIds : List String
  description : String
  followUpAction : Option String
  followUpDate : Option String
deriving DecidableEq

/-- The shape of a parsed sync file: the three collections plus the
legacy `ops`/`acts` synonyms.  Absent fields are `none`. -/
structure FileData where
  opportunities : Option (List Opportunity)
  activities : Option (List Activity)
  contacts : Option (List Contact)
  ops : Option (List Opportunity)
  acts : Option (List Activity)
deriving DecidableEq

/-- A JSON value as far as `processFileContent` can observe it:
`null` (property access throws), a non-object scalar (every property
access yields `undefined`; `truthy` records its JS truthiness, e.g.
`0`, `""` and `false` are falsy while arrays and nonzero numbers are
truthy), or an object carrying the fields of interest. -/
inductive JsVal where
  | jnull
  | scalar (truthy : Bool)
  | obj (d : FileData)
deriving DecidableEq

/-- JS truthiness of a parsed JSON value: `null` and falsy scalars are
falsy; every object (including `{}` and `[]`) is truthy. -/
def jsTruthy : JsVal → Bool
  | .jnull => false
  | .scalar b => b
  | .obj _ => true

/-- The textual content handed to `processFileContent`: an empty text
(the `text ? _ : _` default kicks in), a text on which `JSON.parse`
throws (the `catch` default kicks in), or a text parsing to `v`. -/
inductive FileText where
  | emptyText
  | malformed
  | parsed (v : JsVal)
deriving DecidableEq

/-- The default object substituted for empty or unparseable text:
`{ opportunities: [], activities: [], contacts: [] }`. -/
def emptyFileData : FileData :=
  { opportunities := some [], activities := some [], contacts := some [],
    ops := none, acts := none }

/-- `fileData = text ? JSON.parse(text) : {…defaults}` with the
surrounding `try`/`catch` substituting the same defaults. -/
def parseFile : FileText → JsVal
  | .emptyText => .obj emptyFileData
  | .malformed => .obj emptyFileData
  | .parsed v => v

/-- Property access on a parsed value: `none` when it would throw a
`TypeError` (value is `null`), otherwise the record of fields (all
absent on a non-object scalar). -/
def fieldsOf : JsVal → Option FileData
  | .jnull => none
  | .scalar _ => some { opportunities := none, activities := none,
                        contacts := none, ops := none, acts := none }
  | .obj d => some d

/-- `(fileData.opportunities && fileData.opportunities.length > 0) ||
(fileData.ops && fileData.ops.length > 0)`.  A present empty array is
truthy in JS, so the length test is reached whenever the field is
present. -/
def fileHasData (d : FileData) : Bool :=
  (match d.opportunities with
    | some l => decide (0 < l.length)
    | none => false) ||
  (match d.ops with
    | some l => decide (0 < l.length)
    | none => false)

/-- `fileData.opportunities || fileData.ops || []`: a present
`opportunities` array is used even when empty (arrays are truthy). -/
def fileOpsOf (d : FileData) : List Opportunity :=
  d.opportunities.getD (d.ops.getD [])

/-- `fileData.activities || fileData.acts || []`. -/
def fileActsOf (d : FileData) : List Activity :=
  d.activities.getD (d.acts.getD [])

/-- `syncStatus` of the `App` component. -/
inductive SyncStatus where
  | idle
  | saving
  | saved
  | fileError
deriving DecidableEq

/-- The slice of `App` state the File Sync Engine reads and writes.
`fileHandle` records whether a live handle is connected, and
`conflictData` holds the raw parsed file value passed to
`setConflictData` (its JS truthiness decides whether the conflict
modal renders and whether the auto-save effect bails out). -/
structure AppState where
  opportunities : List Opportunity
  activities : List Activity
  contacts : List Contact
  fileHandle : Bool
  syncStatus : SyncStatus
  hasUnsavedChanges : Bool
  conflictData : Option JsVal
deriving DecidableEq

/-- The initial `App` state: empty collections, no handle, `idle`,
no unsaved changes, no conflict. -/
def initialAppState : AppState :=
  { opportunities := [], activities := [], contacts := [],
    fileHandle := false, syncStatus := .idle,
    hasUnsavedChanges := false, conflictData := none }

/-- `processFileContent(text, handle)` translated line by line.  The
result is `none` when the body throws (property access on a parsed
`null`); the caller catches that and changes nothing. -/
def processFileContent (text : FileText) (handle : Bool) (s : AppState) :
    Option AppState :=
  match fieldsOf (parseFile text) with
  | none => none
  | some d =>
    if !(decide (0 < s.opportunities.length)) && fileHasData d then
      some { s with
        opportunities := fileOpsOf d,
        activities := fileActsOf d,
        contacts := d.contacts.getD [],
        hasUnsavedChanges := false,
        fileHandle := if handle then true else s.fileHandle,
        syncStatus := if handle then .saved else s.syncStatus }
    else if decide (0 < s.opportunities.length) then
      some { s with
        conflictData := some (parseFile text),
        fileHandle := if handle then true else s.fileHandle }
    else
      some (if handle then
        { s with fileHandle := true, syncStatus := .saved,
                 hasUnsavedChanges := false }
      else s)

/-- The state the caller observes after `processFileContent`: on a
thrown `TypeError` the surrounding `catch` leaves state unchanged. -/
def reconcileResult (text : FileText) (handle : Bool) (s : AppState) :
    AppState :=
  match processFileContent text handle s with
  | none => s
  | some s' => s'

/-- JS truthiness of the `conflictData` state field (`null` when unset). -/
def conflictTruthy : Option JsVal → Bool
  | none => false
  | some v => jsTruthy v

/-- The `fileStats` the conflict modal receives:
`conflictData.ops ? conflictData.ops.length :
 conflictData.opportunities?.length || 0` and likewise for
activities.  On a non-object value both fields read as `undefined`,
giving `(0, 0)`. -/
def fileStatsOf : JsVal → Nat × Nat
  | .obj d =>
    ((match d.ops with
       | some l => l.length
       | none => (d.opportunities.getD []).length),
     (match d.acts with
       | some l => l.length
       | none => (d.activities.getD []).length))
  | _ => (0, 0)

/-- What the `{conflictData && <ConflictModal …/>}` render produces:
`some (localStats, fileStats)` exactly when `conflictData` is truthy,
otherwise no conflict prompt. -/
def conflictModalProps (s : AppState) : Option ((Nat × Nat) × (Nat × Nat)) :=
  match s.conflictData with
  | some v =>
    if jsTruthy v then
      some ((s.opportunities.length, s.activities.length), fileStatsOf v)
    else none
  | none => none

/-- The spec-level sync states, derived from the code state: the
conflict prompt showing is `AwaitingUserChoice`; a live handle with no
prompt is `Converged`; otherwise `Unconnected`. -/
inductive SyncState where
  | unconnected
  | converged
  | awaitingUserChoice
deriving DecidableEq

/-- Abstraction map from `App` state to the spec's sync state. -/
def syncStateOf (s : AppState) : SyncState :=
  if conflictTruthy s.conflictData then .awaitingUserChoice
  else if s.fileHandle then .converged
  else .unconnected

/-- `JSON.stringify({ opportunities, activities, contacts })` followed
by `JSON.parse` yields an object with exactly these three fields. -/
def serialize (o : List Opportunity) (a : List Activity)
    (c : List Contact) : FileData :=
  { opportunities := some o, activities := some a, contacts := some c,
    ops := none, acts := none }

/-- Dependencies of the change-tracking effect:
`[opportunities, activities, contacts]`. -/
def unsavedDeps (s : AppState) :
    List Opportunity × List Activity × List Contact :=
  (s.opportunities, s.activities, s.contacts)

/-- Dependencies of the auto-save effect:
`[opportunities, activities, contacts, fileHandle, conflictData]`. -/
def autoSaveDeps (s : AppState) :
    List Opportunity × List Activity × List Contact × Bool × Option JsVal :=
  (s.opportunities, s.activities, s.contacts, s.fileHandle, s.conflictData)

/-- The engine state together with whether a debounced save timeout is
pending. -/
structure SyncWorld where
  st : AppState
  pendingSave : Bool
deriving DecidableEq

/-- One post-render effect pass.  `prev` is the state of the previous
render.  The change-tracking effect re-runs when its dependencies
changed and marks the store dirty when a collection is non-empty; the
auto-save effect re-runs when its dependencies changed, clears any
pending timeout, and schedules a new debounced save unless there is no
handle or the conflict value is truthy
(`if (!fileHandle || conflictData) return`). -/
def runEffects (prev : AppState) (w : SyncWorld) : SyncWorld :=
  let s1 :=
    if unsavedDeps prev ≠ unsavedDeps w.st then
      if 0 < w.st.opportunities.length || 0 < w.st.activities.length then
        { w.st with hasUnsavedChanges := true }
      else w.st
    else w.st
  let p1 :=
    if autoSaveDeps prev ≠ autoSaveDeps w.st then
      w.st.fileHandle && !(conflictTruthy w.st.conflictData)
    else w.pendingSave
  { st := s1, pendingSave := p1 }

/-- The debounced `saveData` firing: writes the snapshot, sets
`syncStatus` to `saved`, clears the dirty flag, and consumes the
pending timeout.  (The written payload is `serialize` of the current
collections.) -/
def saveData (w : SyncWorld) : SyncWorld :=
  if w.pendingSave then
    { st := { w.st with syncStatus := .saved, hasUnsavedChanges := false },
      pendingSave := false }
  else w

/-- Connecting a file: run `processFileContent` (batched state update)
and then the post-render effects, comparing against the pre-connect
state.  `none` when the reconciliation body threw. -/
def connect (text : FileText) (handle : Bool) (w : SyncWorld) :
    Option SyncWorld :=
  (processFileContent text handle w.st).map
    (fun st' => runEffects w.st { st := st', pendingSave := w.pendingSave })

/-- Sort keys of the opportunity roster table. -/
inductive SortKey where
  | employer
  | role
  | status
  | lastActivity
deriving DecidableEq, Fintype

/-- Sort directions. -/
inductive SortDirection where
  | asc
  | desc
deriving DecidableEq, Fintype

/-- The `sortConfig` state. -/
structure SortConfig where
  key : SortKey
  direction : SortDirection
deriving DecidableEq, Fintype

/-- `requestSort` from the `App` component, translated literally. -/
def requestSort (key : SortKey) (cfg : SortConfig) : SortConfig :=
  let direction : SortDirection :=
    if cfg.key = key ∧ cfg.direction = .asc then .desc else .asc
  { key := key, direction := direction }

/-- Direction flip used to state the sort-toggle claim. -/
def flipDir : SortDirection → SortDirection
  | .asc => .desc
  | .desc => .asc

/-- Claim C10 (confirmed): requesting the currently selected sort key
flips the direction (ascending becomes descending and descending
becomes ascending), and requesting a different key selects it with
direction ascending. -/
theorem requestSort_toggle :
    ∀ (cfg : SortConfig) (k : SortKey),
      requestSort k cfg =
        if k = cfg.key then { key := k, direction := flipDir cfg.direction }
        else { key := k, direction := .asc } := by
  decide

/-- A sample opportunity record (the spec's "Acme" scenario). -/
def acmeOpp : Opportunity :=
  { id := "o1", position := "Engineer", role := "Engineer",
    employer := "Acme", description := none, status := .identified,
    createdAt := "2024-01-01", updatedAt := "2024-01-01" }

/-- An app state holding exactly one opportunity. -/
def oneOppState : AppState :=
  { initialAppState with opportunities := [acmeOpp] }

/-- A sample activity record. -/
def callActivity : Activity :=
  { id := "a1", opportunityId := "o1", title := "Call", type := .other,
    date := "2024-01-02", contactIds := [], description := "",
    followUpAction := none, followUpDate := none }

/-- The three collections of an app state. -/
def collectionsOf (s : AppState) :
    List Opportunity × List Activity × List Contact :=
  (s.opportunities, s.activities, s.contacts)

/-- An effective opportunity list with positive length forces
`fileHasData`. -/
theorem fileHasData_of_fileOpsOf (d : FileData)
    (h : 0 < (fileOpsOf d).length) : fileHasData d = true := by
  unfold fileOpsOf at h
  unfold fileHasData
  cases ho : d.opportunities with
  | some l =>
    rw [ho] at h
    simp only [Option.getD_some] at h
    simp [h]
  | none =>
    rw [ho] at h
    cases hops : d.ops with
    | some l =>
      rw [hops] at h
      simp only [Option.getD_some, Option.getD_none] at h
      simp [hops, h]
    | none =>
      rw [hops] at h
      simp at h

/-- When the file carries no opportunity data, reconciliation never
touches the three collections (either the conflict branch or the
plain-connect branch is taken). -/
theorem reconcile_noData_preserves (t : FileText) (hb : Bool)
    (s : AppState) (d : FileData)
    (hf : fieldsOf (parseFile t) = some d)
    (hfd : fileHasData d = false) :
    collectionsOf (reconcileResult t hb s) = collectionsOf s := by
  unfold reconcileResult processFileContent
  rw [hf]
  simp only [hfd, Bool.and_false]
  by_cases hl : 0 < s.opportunities.length
  · simp [hl, collectionsOf]
  · have hc : decide (0 < s.opportunities.length) = false := by
      simpa using hl
    rw [hc]
    cases hb <;> simp [collectionsOf]

/-- Claim C1 (corrected): whenever the in-memory store holds at least
one opportunity, reconciliation leaves all three collections and the
dirty flag untouched (the file's content is never auto-merged or
auto-adopted), and — provided the parsed file value is truthy in the
host language, which covers every JSON object, an empty file and a
malformed file — the engine sets the conflict data to the parsed value
and the conflict prompt renders with the opportunity/activity counts of
both sides (`AwaitingUserChoice`).  File content parsing to JSON `null`
instead aborts reconciliation with a caught error, and a falsy scalar
sets conflict data that never renders a prompt, which is why the
original universally quantified claim fails (see the counterexample). -/
theorem conflict_when_local_nonEmpty (t : FileText) (hb : Bool)
    (s : AppState) (hlocal : 0 < s.opportunities.length) :
    (reconcileResult t hb s).opportunities = s.opportunities ∧
    (reconcileResult t hb s).activities = s.activities ∧
    (reconcileResult t hb s).contacts = s.contacts ∧
    (reconcileResult t hb s).hasUnsavedChanges = s.hasUnsavedChanges ∧
    (jsTruthy (parseFile t) = true →
      conflictModalProps (reconcileResult t hb s) =
        some ((s.opportunities.length, s.activities.length),
          fileStatsOf (parseFile t)) ∧
      syncStateOf (reconcileResult t hb s) = .awaitingUserChoice) := by
  cases hft : fieldsOf (parseFile t) with
  | none =>
    have hnull : parseFile t = .jnull := by
      cases hv : parseFile t
      · rfl
      · rw [hv] at hft; simp [fieldsOf] at hft
      · rw [hv] at hft; simp [fieldsOf] at hft
    have hres : reconcileResult t hb s = s := by
      unfold reconcileResult processFileContent
      rw [hft]
    rw [hres]
    refine ⟨rfl, rfl, rfl, rfl, fun hcontra => ?_⟩
    rw [hnull] at hcontra
    simp [jsTruthy] at hcontra
  | some d =>
    have hc1 : (!decide (0 < s.opportunities.length) && fileHasData d) =
        false := by simp [hlocal]
    have hc2 : decide (0 < s.opportunities.length) = true := by
      simpa using hlocal
    have hres : reconcileResult t hb s =
        { s with conflictData := some (parseFile t),
                 fileHandle := if hb then true else s.fileHandle } := by
      unfold reconcileResult processFileContent
      rw [hft]
      simp [hc1, hc2]
    rw [hres]
    refine ⟨rfl, rfl, rfl, rfl, fun htr => ⟨?_, ?_⟩⟩
    · simp [conflictModalProps, htr]
    · simp [syncStateOf, conflictTruthy, htr]

/-- Claim C1, counterexample to the original statement: a selected file
whose text is the four bytes `null` parses successfully, but the first
property access inside `processFileContent` throws a `TypeError` that
the caller catches — against a store holding one opportunity the engine
never reaches `AwaitingUserChoice` (no conflict prompt is produced). -/
theorem conflict_null_no_prompt :
    processFileContent (.parsed .jnull) true oneOppState = none ∧
    0 < oneOppState.opportunities.length ∧
    conflictModalProps (reconcileResult (.parsed .jnull) true oneOppState) =
      none := by
  refine ⟨rfl, by decide, rfl⟩

/-- Claim C1, witness instantiating the amended theorem at an empty
file against a one-opportunity store. -/
theorem conflict_when_local_nonEmpty_witness :
    (reconcileResult .emptyText true oneOppState).opportunities =
      [acmeOpp] ∧
    conflictModalProps (reconcileResult .emptyText true oneOppState) =
      some ((1, 0), (0, 0)) := by
  have h := conflict_when_local_nonEmpty .emptyText true oneOppState
    (by decide)
  exact ⟨h.1, (h.2.2.2.2 (by rfl)).1⟩

/-- After a render whose state `stA` is connected and conflict free and
whose effect dependencies changed, the scheduled debounced save settles
into a clean, converged state. -/
theorem settled_after_adopt (prev stA : AppState) (p : Bool)
    (hfh : stA.fileHandle = true) (hcd : stA.conflictData = none)
    (hdeps1 : unsavedDeps prev ≠ unsavedDeps stA)
    (hdeps2 : autoSaveDeps prev ≠ autoSaveDeps stA) :
    (saveData (runEffects prev
      { st := stA, pendingSave := p })).st.hasUnsavedChanges = false ∧
    (saveData (runEffects prev
      { st := stA, pendingSave := p })).pendingSave = false ∧
    syncStateOf (saveData (runEffects prev
      { st := stA, pendingSave := p })).st = .converged := by
  have hpend : (stA.fileHandle && !(conflictTruthy stA.conflictData)) =
      true := by
    rw [hfh, hcd]
    rfl
  by_cases hdirty :
      (0 < stA.opportunities.length || 0 < stA.activities.length) = true
  · have hrun : runEffects prev { st := stA, pendingSave := p } =
        { st := { stA with hasUnsavedChanges := true },
          pendingSave := true } := by
      unfold runEffects
      dsimp only
      rw [if_pos hdeps1, if_pos hdeps2, if_pos hdirty, hpend]
    rw [hrun]
    simp [saveData, syncStateOf, conflictTruthy, hcd, hfh]
  · have hrun : runEffects prev { st := stA, pendingSave := p } =
        { st := stA, pendingSave := true } := by
      unfold runEffects
      dsimp only
      rw [if_pos hdeps1, if_pos hdeps2, if_neg hdirty, hpend]
    rw [hrun]
    simp [saveData, syncStateOf, conflictTruthy, hcd, hfh]

/-- Claim C2 (confirmed): connecting a file whose parsed content
carries at least one opportunity against a store with zero
opportunities adopts the file's three collections wholesale,
transitions to `Converged` with no conflict prompt, and marks the
store clean.  (The change-tracking effect re-marks the store dirty
until the debounced save that the connection schedules has fired; the
final conjunct shows the settled post-save state is clean and
converged.) -/
theorem adopt_on_empty_store (d : FileData) (s : AppState)
    (h0 : s.opportunities = []) (hc : s.conflictData = none)
    (hne : 0 < (fileOpsOf d).length) :
    (processFileContent (.parsed (.obj d)) true s).map
        (fun s' => s'.opportunities) = some (fileOpsOf d) ∧
    (processFileContent (.parsed (.obj d)) true s).map
        (fun s' => s'.activities) = some (fileActsOf d) ∧
    (processFileContent (.parsed (.obj d)) true s).map
        (fun s' => s'.contacts) = some (d.contacts.getD []) ∧
    (processFileContent (.parsed (.obj d)) true s).map
        (fun s' => s'.hasUnsavedChanges) = some false ∧
    (processFileContent (.parsed (.obj d)) true s).map
        (fun s' => s'.syncStatus) = some .saved ∧
    (processFileContent (.parsed (.obj d)) true s).map
        (fun s' => conflictModalProps s') = some none ∧
    (processFileContent (.parsed (.obj d)) true s).map
        (fun s' => syncStateOf s') = some .converged ∧
    (∀ p : Bool,
      (connect (.parsed (.obj d)) true { st := s, pendingSave := p }).map
          (fun w => ((saveData w).st.hasUnsavedChanges,
            (saveData w).pendingSave, syncStateOf (saveData w).st)) =
        some (false, false, .converged)) := by
  have hfd : fileHasData d = true := fileHasData_of_fileOpsOf d hne
  have hl : decide (0 < s.opportunities.length) = false := by
    simp [h0]
  have hps : processFileContent (.parsed (.obj d)) true s =
      some { s with
        opportunities := fileOpsOf d,
        activities := fileActsOf d,
        contacts := d.contacts.getD [],
        hasUnsavedChanges := false,
        fileHandle := true,
        syncStatus := .saved } := by
    unfold processFileContent
    simp [parseFile, fieldsOf, hl, hfd]
  refine ⟨?_, ?_, ?_, ?_, ?_, ?_, ?_, ?_⟩
  · rw [hps]; rfl
  · rw [hps]; rfl
  · rw [hps]; rfl
  · rw [hps]; rfl
  · rw [hps]; rfl
  · rw [hps]
    simp [conflictModalProps, hc]
  · rw [hps]
    simp [syncStateOf, conflictTruthy, hc]
  · intro p
    unfold connect
    rw [hps]
    simp only [Option.map_some', Option.some.injEq]
    have hne2 : unsavedDeps s ≠ unsavedDeps { s with
        opportunities := fileOpsOf d,
        activities := fileActsOf d,
        contacts := d.contacts.getD [],
        hasUnsavedChanges := false,
        fileHandle := true,
        syncStatus := .saved } := by
      intro he
      have hfst := congrArg (fun q => q.1) he
      simp only [unsavedDeps] at hfst
      rw [h0] at hfst
      rw [← hfst] at hne
      simp at hne
    have hne3 : autoSaveDeps s ≠ autoSaveDeps { s with
        opportunities := fileOpsOf d,
        activities := fileActsOf d,
        contacts := d.contacts.getD [],
        hasUnsavedChanges := false,
        fileHandle := true,
        syncStatus := .saved } := by
      intro he
      have hfst := congrArg (fun q => q.1) he
      simp only [autoSaveDeps] at hfst
      rw [h0] at hfst
      rw [← hfst] at hne
      simp at hne
    have hset := settled_after_adopt s { s with
        opportunities := fileOpsOf d,
        activities := fileActsOf d,
        contacts := d.contacts.getD [],
        hasUnsavedChanges := false,
        fileHandle := true,
        syncStatus := .saved } p rfl hc hne2 hne3
    simp only [Prod.mk.injEq]
    exact ⟨hset.1, hset.2.1, hset.2.2⟩

/-- Claim C2, witness: the spec's scenario — empty store, file
containing exactly one opportunity record. -/
theorem adopt_on_empty_store_witness :
    (processFileContent
        (.parsed (.obj (serialize [acmeOpp] [] []))) true
        initialAppState).map (fun s' => s'.opportunities) =
      some [acmeOpp] ∧
    (processFileContent
        (.parsed (.obj (serialize [acmeOpp] [] []))) true
        initialAppState).map (fun s' => conflictModalProps s') =
      some none ∧
    (processFileContent
        (.parsed (.obj (serialize [acmeOpp] [] []))) true
        initialAppState).map (fun s' => syncStateOf s') =
      some .converged ∧
    (connect (.parsed (.obj (serialize [acmeOpp] [] []))) true
        { st := initialAppState, pendingSave := false }).map
        (fun w => ((saveData w).st.hasUnsavedChanges,
          (saveData w).pendingSave, syncStateOf (saveData w).st)) =
      some (false, false, .converged) := by
  have h := adopt_on_empty_store (serialize [acmeOpp] [] [])
    initialAppState rfl rfl (by decide)
  exact ⟨h.1, h.2.2.2.2.2.1, h.2.2.2.2.2.2.1, h.2.2.2.2.2.2.2 false⟩

/-- Claim C3 (corrected, amended statement): provided the opportunity
collection is non-empty, serializing the three collections and
reconciling an otherwise-empty store against the resulting file
reproduces all three collections exactly, order preserved. -/
theorem roundTrip_reproduces (o : List Opportunity) (a : List Activity)
    (c : List Contact) (hb : Bool) (s : AppState)
    (h1 : s.opportunities = []) (_h2 : s.activities = [])
    (_h3 : s.contacts = []) (hne : o ≠ []) :
    (processFileContent (.parsed (.obj (serialize o a c))) hb s).map
      collectionsOf = some (o, a, c) := by
  have hpos : 0 < (fileOpsOf (serialize o a c)).length := by
    simpa [fileOpsOf, serialize] using List.length_pos.mpr hne
  have hfd : fileHasData (serialize o a c) = true :=
    fileHasData_of_fileOpsOf _ hpos
  have hl : decide (0 < s.opportunities.length) = false := by
    simp [h1]
  unfold processFileContent
  simp only [parseFile, fieldsOf, hl, hfd, Bool.not_false, Bool.true_and,
    if_true]
  simp [collectionsOf, fileOpsOf, fileActsOf, serialize]

/-- Claim C3, counterexample to the original statement: a triple with
no opportunities but one activity serializes to a file that an empty
store does NOT adopt (`fileHasData` only inspects opportunities), so
the round trip loses the activity. -/
theorem roundTrip_loses_activities :
    (processFileContent
        (.parsed (.obj (serialize [] [callActivity] []))) true
        initialAppState).map (fun s' => s'.activities) = some [] ∧
    [callActivity] ≠ ([] : List Activity) := by
  refine ⟨rfl, by decide⟩

/-- Claim C3, witness for the amended round-trip theorem. -/
theorem roundTrip_reproduces_witness :
    (processFileContent
        (.parsed (.obj (serialize [acmeOpp] [callActivity] []))) true
        initialAppState).map collectionsOf =
      some ([acmeOpp], [callActivity], []) := by
  exact roundTrip_reproduces [acmeOpp] [callActivity] [] true
    initialAppState rfl rfl rfl (by decide)

/-- A successful reconciliation with a live handle against a store with
no opportunities and no conflict always ends with the handle connected
and no conflict data. -/
theorem processFileContent_sets_handle (t : FileText) (s st' : AppState)
    (h0 : s.opportunities = []) (hc : s.conflictData = none)
    (hp : processFileContent t true s = some st') :
    st'.fileHandle = true ∧ st'.conflictData = none := by
  unfold processFileContent at hp
  cases hft : fieldsOf (parseFile t) with
  | none =>
    rw [hft] at hp
    simp at hp
  | some d =>
    rw [hft] at hp
    have hl : decide (0 < s.opportunities.length) = false := by simp [h0]
    simp only [hl, Bool.not_false, Bool.true_and, Bool.false_eq_true,
      if_false] at hp
    split at hp <;>
      · rw [Option.some.injEq] at hp
        subst hp
        exact ⟨by simp, by simp [hc]⟩

/-- The `App` state after connecting a live handle on an empty store
with an empty (or unparseable) file. -/
def connectedEmptyWorld : SyncWorld :=
  { st := { initialAppState with fileHandle := true, syncStatus := .saved },
    pendingSave := true }

/-- Claim C4 (corrected, amended statement): firing the debounced save
consumes the pending write, and re-rendering with unchanged effect
dependencies changes nothing and schedules nothing — so after the save
that the connection itself triggers, no further write is produced
without an in-memory change.  Connecting, however, always schedules one
debounced save, because setting the file handle changes a dependency of
the auto-save effect (see the counterexample). -/
theorem no_spurious_save_after_converge :
    ∀ (w : SyncWorld) (prev : AppState) (t : FileText) (s : AppState)
      (p : Bool) (w' : SyncWorld),
      (saveData w).pendingSave = false ∧
      (unsavedDeps prev = unsavedDeps w.st →
        autoSaveDeps prev = autoSaveDeps w.st → runEffects prev w = w) ∧
      (s.opportunities = [] → s.conflictData = none →
        s.fileHandle = false →
        connect t true { st := s, pendingSave := p } = some w' →
        w'.pendingSave = true) := by
  intro w prev t s p w'
  refine ⟨?_, ?_, ?_⟩
  · unfold saveData
    split
    · rfl
    · next h => simpa using h
  · intro h1 h2
    unfold runEffects
    simp [h1, h2]
  · intro h0 hc hf hcn
    unfold connect at hcn
    cases hp : processFileContent t true s with
    | none =>
      rw [hp] at hcn
      simp at hcn
    | some st' =>
      rw [hp] at hcn
      simp only [Option.map_some', Option.some.injEq] at hcn
      have hh := processFileContent_sets_handle t s st' h0 hc hp
      rw [← hcn]
      have hne : autoSaveDeps s ≠ autoSaveDeps st' := by
        intro he
        have hcomp : s.fileHandle = st'.fileHandle :=
          congrArg (fun q => q.2.2.2.1) he
        rw [hf, hh.1] at hcomp
        exact Bool.false_ne_true hcomp
      unfold runEffects
      simp [hne, hh.1, hh.2, conflictTruthy]

/-- Claim C4, counterexample to the original statement: connecting an
empty file to an empty store — file content and in-memory state agree —
nevertheless schedules a debounced save, because the auto-save effect
re-runs when the file-handle dependency flips, even though none of the
three collections changed. -/
theorem connect_triggers_save :
    connect .emptyText true { st := initialAppState, pendingSave := false } =
      some connectedEmptyWorld ∧
    connectedEmptyWorld.pendingSave = true ∧
    connectedEmptyWorld.st.opportunities = initialAppState.opportunities ∧
    connectedEmptyWorld.st.activities = initialAppState.activities ∧
    connectedEmptyWorld.st.contacts = initialAppState.contacts := by
  refine ⟨rfl, rfl, rfl, rfl, rfl⟩

/-- Claim C4, witness for the amended theorem. -/
theorem no_spurious_save_after_converge_witness :
    (saveData { st := initialAppState, pendingSave := true }).pendingSave =
      false ∧
    runEffects initialAppState { st := initialAppState, pendingSave := false } =
      { st := initialAppState, pendingSave := false } ∧
    connectedEmptyWorld.pendingSave = true := by
  have h1 := no_spurious_save_after_converge
    { st := initialAppState, pendingSave := true } initialAppState
    .emptyText initialAppState false connectedEmptyWorld
  have h2 := no_spurious_save_after_converge
    { st := initialAppState, pendingSave := false } initialAppState
    .emptyText initialAppState false connectedEmptyWorld
  exact ⟨h1.1, h2.2.1 rfl rfl, h1.2.2 rfl rfl rfl (by rfl)⟩

/-- Claim C5 (corrected, amended statement): empty and syntactically
malformed file text is substituted by the default empty collections,
file text parsing to a non-object scalar is handled through absent
field reads, and in every one of those cases — as well as for text
parsing to JSON `null`, where the body throws a caught `TypeError`
instead of substituting anything — the existing in-memory collections
are never modified by reconciliation. -/
theorem malformed_input_tolerated :
    ∀ (hb : Bool) (s : AppState) (b : Bool),
      parseFile .emptyText = .obj emptyFileData ∧
      parseFile .malformed = .obj emptyFileData ∧
      collectionsOf (reconcileResult .emptyText hb s) = collectionsOf s ∧
      collectionsOf (reconcileResult .malformed hb s) = collectionsOf s ∧
      collectionsOf (reconcileResult (.parsed (.scalar b)) hb s) =
        collectionsOf s ∧
      processFileContent (.parsed .jnull) hb s = none ∧
      collectionsOf (reconcileResult (.parsed .jnull) hb s) =
        collectionsOf s := by
  intro hb s b
  refine ⟨rfl, rfl, ?_, ?_, ?_, rfl, rfl⟩
  · exact reconcile_noData_preserves _ _ _ emptyFileData rfl (by decide)
  · exact reconcile_noData_preserves _ _ _ emptyFileData rfl (by decide)
  · exact reconcile_noData_preserves _ _ _ _ rfl (by decide)

/-- Claim C5, counterexample to the original statement: file text that
parses to JSON `null` does not parse as the expected object, yet the
engine does not substitute empty collections for it — the body throws
(result `none`), unlike genuinely malformed text, for which
reconciliation proceeds normally. -/
theorem null_content_not_substituted :
    processFileContent (.parsed .jnull) true initialAppState = none ∧
    (processFileContent .malformed true initialAppState).isSome = true := by
  exact ⟨rfl, rfl⟩

/-- JS `a || b` for a possibly-absent string: `undefined` and `""` are
falsy. -/
def strOr (o : Option String) (dflt : String) : String :=
  match o with
  | none => dflt
  | some s => if s = "" then dflt else s

/-- JS truthiness of a possibly-absent string. -/
def optTruthy (o : Option String) : Bool :=
  match o with
  | none => false
  | some s => decide (s ≠ "")

/-- `Array.from(new Set(l))`: deduplication preserving the first
occurrence of each element, as a JS `Set` iterates in insertion
order. -/
def jsSetDedup (l : List String) : List String :=
  l.foldl (fun acc x => if x ∈ acc then acc else acc ++ [x]) []

/-- The fold underlying `jsSetDedup` keeps the accumulator duplicate
free. -/
theorem jsSetFold_nodup (l : List String) (acc : List String)
    (h : acc.Nodup) :
    (List.foldl (fun acc x => if x ∈ acc then acc else acc ++ [x])
      acc l).Nodup := by
  induction l generalizing acc with
  | nil => exact h
  | cons x xs ih =>
    rw [List.foldl_cons]
    by_cases hx : x ∈ acc
    · rw [if_pos hx]
      exact ih acc h
    · rw [if_neg hx]
      refine ih _ ?_
      rw [List.nodup_append]
      exact ⟨h, List.nodup_singleton x, by simpa using hx⟩

/-- Membership in the fold underlying `jsSetDedup`. -/
theorem mem_jsSetFold (l : List String) (acc : List String) (a : String) :
    a ∈ List.foldl (fun acc x => if x ∈ acc then acc else acc ++ [x])
        acc l ↔ a ∈ acc ∨ a ∈ l := by
  induction l generalizing acc with
  | nil => simp
  | cons x xs ih =>
    rw [List.foldl_cons]
    by_cases hx : x ∈ acc
    · rw [if_pos hx, ih]
      constructor
      · rintro (h | h)
        · exact Or.inl h
        · exact Or.inr (List.mem_cons_of_mem x h)
      · rintro (h | h)
        · exact Or.inl h
        · rcases List.mem_cons.mp h with h1 | h2
          · exact Or.inl (h1 ▸ hx)
          · exact Or.inr h2
    · rw [if_neg hx, ih]
      simp only [List.mem_append, List.mem_singleton, List.mem_cons]
      tauto

/-- `jsSetDedup` output is duplicate free. -/
theorem jsSetDedup_nodup (l : List String) : (jsSetDedup l).Nodup :=
  jsSetFold_nodup l [] List.nodup_nil

/-- `jsSetDedup` preserves membership. -/
theorem mem_jsSetDedup (l : List String) (a : String) :
    a ∈ jsSetDedup l ↔ a ∈ l := by
  unfold jsSetDedup
  rw [mem_jsSetFold]
  simp

/-- A contact candidate extracted by the Text-Extraction Service
(`Partial<Contact>`).  `""` stands for an absent `name`/`role`/
`company` — every use in the source is through JS truthiness, which
treats `undefined` and `""` identically. -/
structure ExtractedContact where
  name : String
  role : String
  company : String
  email : Option String
deriving DecidableEq

/-- The modal's `formData` (`Partial<Activity>`), initialised with
every field present, so plain strings with `""` for blank. -/
structure FormData where
  title : String
  type : ActivityType
  date : String
  description : String
  contactIds : List String
  followUpAction : String
  followUpDate : String
deriving DecidableEq

/-- The mutable state of `ActivityModal` relevant to merge and
finalization. -/
structure ModalState where
  formData : FormData
  isNewOp : Bool
  selectedOpId : String
  newOpEmployer : String
  newOpPosition : String
  newOpRole : String
  newOpStatus : OpportunityStatus
  stagedContacts : List ExtractedContact
deriving DecidableEq

/-- The extraction-service response as consumed by `handleAutoFill`
(`ParsedActivity` in `types.ts`): absent fields are `none`. -/
structure ParseResult where
  isNewOpportunity : Bool
  opportunityMatchId : Option String
  oppEmployer : Option String
  oppPosition : Option String
  oppRole : Option String
  oppStatus : Option OpportunityStatus
  actTitle : Option String
  actType : Option ActivityType
  actDate : Option String
  actFollowUpAction : Option String
  actFollowUpDate : Option String
  contacts : List ExtractedContact
deriving DecidableEq

/-- JS `String.prototype.toLowerCase`, modelled structurally over the
character list so that it evaluates by kernel reduction. -/
def jsToLower (s : String) : String :=
  String.mk (s.data.map Char.toLower)

/-- JS `String.prototype.trim`, modelled structurally over the
character list so that it evaluates by kernel reduction. -/
def jsTrim (s : String) : String :=
  String.mk
    (((s.data.dropWhile Char.isWhitespace).reverse.dropWhile
      Char.isWhitespace).reverse)

/-- `contacts.find(existing => existing.name.toLowerCase() ===
c.name.toLowerCase())`. -/
def contactMatch (contacts : List Contact) (c : ExtractedContact) :
    Option Contact :=
  contacts.find? (fun existing => jsToLower existing.name = jsToLower c.name)

/-- Step 1 of `handleAutoFill`: the opportunity suggestion.  A locked
context (`opportunityId` passed in) ignores the suggestion entirely. -/
def autoFillOpp (lock : Option String) (result : ParseResult)
    (st : ModalState) : ModalState :=
  match lock with
  | some _ => st
  | none =>
    if result.isNewOpportunity then
      { st with
        isNewOp := true,
        newOpEmployer := strOr result.oppEmployer "",
        newOpPosition := strOr result.oppPosition "Unknown Position",
        newOpRole := strOr result.oppRole "",
        newOpStatus := result.oppStatus.getD .identified,
        selectedOpId := "" }
    else if optTruthy result.opportunityMatchId then
      { st with isNewOp := false,
                selectedOpId := result.opportunityMatchId.getD "" }
    else st

/-- Step 2 of `handleAutoFill`: extracted activity fields only fill
blanks (type only overrides the default `Other`; date only overrides
an unchanged today default). -/
def autoFillActivity (today : String) (result : ParseResult)
    (st : ModalState) : ModalState :=
  { st with formData := { st.formData with
      title := if st.formData.title = "" then strOr result.actTitle ""
        else st.formData.title,
      type := match result.actType with
        | some ty => if st.formData.type = .other then ty
            else st.formData.type
        | none => st.formData.type,
      date := if st.formData.date = today ∧ optTruthy result.actDate then
          result.actDate.getD ""
        else st.formData.date,
      followUpAction := if st.formData.followUpAction = "" then
          strOr result.actFollowUpAction ""
        else st.formData.followUpAction,
      followUpDate := if st.formData.followUpDate = "" then
          strOr result.actFollowUpDate ""
        else st.formData.followUpDate } }

/-- Step 3 of `handleAutoFill`: each extracted contact candidate is
matched case-insensitively by name; matches contribute their identifier
to the selected set (deduplicated through a JS `Set`), non-matches are
staged as new-contact drafts. -/
def autoFillContacts (contacts : List Contact) (result : ParseResult)
    (st : ModalState) : ModalState :=
  if 0 < result.contacts.length then
    { st with
      formData := { st.formData with
        contactIds := jsSetDedup (st.formData.contactIds ++
          result.contacts.filterMap
            (fun c => (contactMatch contacts c).map (fun m => m.id))) },
      stagedContacts := st.stagedContacts ++
        result.contacts.filter (fun c => (contactMatch contacts c).isNone) }
  else st

/-- `handleAutoFill` with the extraction result supplied: the empty
description guard, then the three merge steps in source order. -/
def handleAutoFill (today : String) (lock : Option String)
    (contacts : List Contact) (result : ParseResult) (st : ModalState) :
    ModalState :=
  if jsTrim st.formData.description = "" then st
  else
    autoFillContacts contacts result
      (autoFillActivity today result (autoFillOpp lock result st))

/-- `isNewOp && !opportunityId`: a brand-new opportunity is only
created when the context is not locked. -/
def isCreatingOf (lock : Option String) (st : ModalState) : Bool :=
  st.isNewOp && !(optTruthy lock)

/-- How many fresh identifiers are consumed before the contact
identifiers: one when a new opportunity is created first. -/
def kOf (lock : Option String) (st : ModalState) : Nat :=
  if isCreatingOf lock st then 1 else 0

/-- The staged new opportunity built by `handleSave`, when any. -/
def newOpOf (fresh : Nat → String) (lock : Option String)
    (today : String) (st : ModalState) : Option Opportunity :=
  if isCreatingOf lock st then
    some { id := fresh 0,
           position := st.newOpPosition,
           role := st.newOpRole,
           employer := st.newOpEmployer,
           description := some "Created via Smart Log",
           status := st.newOpStatus,
           createdAt := today,
           updatedAt := today }
  else none

/-- Promotion of one staged contact draft (`stagedContacts.map` body of
`handleSave`): a fresh identifier, `name || 'Unknown'`,
`role || 'Contact'`, `company || (newOp ? newOp.employer :
'Unknown')`, and an `Auto-created` note. -/
def promoteContact (fresh : Nat → String) (k : Nat)
    (newOp : Option Opportunity) (p : Nat × ExtractedContact) : Contact :=
  { id := fresh (k + p.1),
    name := if p.2.name = "" then "Unknown" else p.2.name,
    role := if p.2.role = "" then "Contact" else p.2.role,
    email := p.2.email,
    phone := none,
    company := if p.2.company = "" then
        (match newOp with
         | some o => o.employer
         | none => "Unknown")
      else p.2.company,
    notes := some "Auto-created" }

/-- All promoted contact drafts, in staging order. -/
def promotedContacts (fresh : Nat → String) (lock : Option String)
    (today : String) (st : ModalState) : List Contact :=
  st.stagedContacts.enum.map
    (promoteContact fresh (kOf lock st) (newOpOf fresh lock today st))

/-- The payload `handleSave` hands to `onSave`. -/
structure SaveResult where
  activity : Activity
  newOpportunity : Option Opportunity
  newContacts : List Contact
deriving DecidableEq

/-- The successful branch of `handleSave`, after the guards. -/
def buildSave (fresh : Nat → String) (lock : Option String)
    (initialActivity : Option Activity) (today : String)
    (st : ModalState) : SaveResult :=
  { activity :=
      { id :=
          match initialActivity with
          | some a => if a.id = "" then
              fresh (kOf lock st + st.stagedContacts.length) else a.id
          | none => fresh (kOf lock st + st.stagedContacts.length),
        opportunityId :=
          if isCreatingOf lock st then fresh 0
          else if optTruthy lock then lock.getD "" else st.selectedOpId,
        title := st.formData.title,
        type := st.formData.type,
        date := st.formData.date,
        contactIds := st.formData.contactIds ++
          (promotedContacts fresh lock today st).map (fun c => c.id),
        description := st.formData.description,
        followUpAction := some st.formData.followUpAction,
        followUpDate := some st.formData.followUpDate },
    newOpportunity := newOpOf fresh lock today st,
    newContacts := promotedContacts fresh lock today st }

/-- `handleSave`: the three mandatory-field guards
(`!title || !date`, `!isNewOp && !selectedOpId && !opportunityId`,
`isNewOp && !newOpData.employer`) reject with no payload; otherwise
the save payload is built and handed to the caller. -/
def handleSave (fresh : Nat → String) (lock : Option String)
    (initialActivity : Option Activity) (today : String)
    (st : ModalState) : Option SaveResult :=
  if st.formData.title = "" ∨ st.formData.date = "" then none
  else if st.isNewOp = false ∧ st.selectedOpId = "" ∧
      optTruthy lock = false then none
  else if st.isNewOp = true ∧ st.newOpEmployer = "" then none
  else some (buildSave fresh lock initialActivity today st)

/-- `App.handleSaveActivity`: append the staged opportunity, append the
promoted contacts, then append the activity (or replace it by
identifier when editing), and force the dirty flag. -/
def handleSaveActivity (editing : Option Activity) (d : SaveResult)
    (s : AppState) : AppState :=
  let s1 := match d.newOpportunity with
    | some o => { s with opportunities := s.opportunities ++ [o] }
    | none => s
  let s2 := if 0 < d.newContacts.length then
      { s1 with contacts := s1.contacts ++ d.newContacts }
    else s1
  let s3 := match editing with
    | some _ =>
      { s2 with activities :=
          (s2.activities.map fun (a : Activity) =>
            if a.id = d.activity.id then d.activity else a) }
    | none => { s2 with activities := s2.activities ++ [d.activity] }
  { s3 with hasUnsavedChanges := true }

/-- The end-to-end effect of pressing Save on the `App` state: a
rejected save changes nothing. -/
def trySave (fresh : Nat → String) (lock : Option String)
    (initialActivity : Option Activity) (today : String)
    (st : ModalState) (s : AppState) : AppState :=
  match handleSave fresh lock initialActivity today st with
  | none => s
  | some d => handleSaveActivity initialActivity d s

/-- Step 1 of the auto-fill never touches the form data or the staged
contact drafts. -/
theorem autoFillOpp_fields (lock : Option String) (r : ParseResult)
    (st : ModalState) :
    (autoFillOpp lock r st).formData = st.formData ∧
    (autoFillOpp lock r st).stagedContacts = st.stagedContacts := by
  unfold autoFillOpp
  cases lock with
  | none =>
    by_cases h1 : r.isNewOpportunity = true
    · simp [h1]
    · by_cases h2 : optTruthy r.opportunityMatchId = true
      · simp [h1, h2]
      · simp [h1, h2]
  | some _ => exact ⟨rfl, rfl⟩

/-- Step 2 of the auto-fill never touches the selected contact set or
the staged contact drafts. -/
theorem autoFillActivity_fields (today : String) (r : ParseResult)
    (st : ModalState) :
    (autoFillActivity today r st).formData.contactIds =
      st.formData.contactIds ∧
    (autoFillActivity today r st).stagedContacts = st.stagedContacts :=
  ⟨rfl, rfl⟩

/-- With a locked opportunity context, the whole auto-fill preserves
every opportunity-selection field of the modal state. -/
theorem autoFill_locked_selection (today oid : String)
    (cts : List Contact) (r : ParseResult) (st : ModalState) :
    (handleAutoFill today (some oid) cts r st).isNewOp = st.isNewOp ∧
    (handleAutoFill today (some oid) cts r st).selectedOpId =
      st.selectedOpId ∧
    (handleAutoFill today (some oid) cts r st).newOpEmployer =
      st.newOpEmployer ∧
    (handleAutoFill today (some oid) cts r st).newOpPosition =
      st.newOpPosition ∧
    (handleAutoFill today (some oid) cts r st).newOpRole =
      st.newOpRole ∧
    (handleAutoFill today (some oid) cts r st).newOpStatus =
      st.newOpStatus := by
  unfold handleAutoFill
  split
  · exact ⟨rfl, rfl, rfl, rfl, rfl, rfl⟩
  · unfold autoFillContacts
    split
    · exact ⟨rfl, rfl, rfl, rfl, rfl, rfl⟩
    · exact ⟨rfl, rfl, rfl, rfl, rfl, rfl⟩

/-- Claim C6 (confirmed): with the caller's context locked to
opportunity `oid`, auto-fill ignores every extraction suggestion about
opportunity identity (the new-opportunity flag, the match identifier
and the staged new-opportunity fields are untouched), and whatever
finalization produces references `oid` and stages no new
opportunity. -/
theorem locked_context_wins (today oid : String) (cts : List Contact)
    (r : ParseResult) (st : ModalState) (iA : Option Activity)
    (fresh : Nat → String) (hoid : oid ≠ "") :
    ((handleAutoFill today (some oid) cts r st).isNewOp = st.isNewOp ∧
      (handleAutoFill today (some oid) cts r st).selectedOpId =
        st.selectedOpId ∧
      (handleAutoFill today (some oid) cts r st).newOpEmployer =
        st.newOpEmployer ∧
      (handleAutoFill today (some oid) cts r st).newOpPosition =
        st.newOpPosition ∧
      (handleAutoFill today (some oid) cts r st).newOpRole =
        st.newOpRole ∧
      (handleAutoFill today (some oid) cts r st).newOpStatus =
        st.newOpStatus) ∧
    (handleSave fresh (some oid) iA today st).map
        (fun sr => (sr.activity.opportunityId, sr.newOpportunity)) =
      (handleSave fresh (some oid) iA today st).map
        (fun _ => (oid, (none : Option Opportunity))) := by
  refine ⟨autoFill_locked_selection today oid cts r st, ?_⟩
  have htr : optTruthy (some oid) = true := by
    simp [optTruthy, hoid]
  unfold handleSave
  split
  · rfl
  · split
    · rfl
    · split
      · rfl
      · simp only [Option.map_some', Option.some.injEq]
        simp [buildSave, newOpOf, isCreatingOf, htr]

/-- The sample extraction result of the spec's locked-context scenario:
the service reports a match with existing opportunity `o1`. -/
def suggestionO1 : ParseResult :=
  { isNewOpportunity := false, opportunityMatchId := some "o1",
    oppEmployer := none, oppPosition := none, oppRole := none,
    oppStatus := none, actTitle := none, actType := none, actDate := none,
    actFollowUpAction := none, actFollowUpDate := none, contacts := [] }

/-- A filled-in activity form: title and date present, a non-blank
description. -/
def filledFormData : FormData :=
  { title := "Screening Call", type := .other, date := "2024-01-02",
    description := "met recruiter", contactIds := [],
    followUpAction := "", followUpDate := "" }

/-- A filled-in modal state (title and date present, nothing staged). -/
def lockedModalState : ModalState :=
  { formData := filledFormData,
    isNewOp := false, selectedOpId := "", newOpEmployer := "",
    newOpPosition := "", newOpRole := "", newOpStatus := .identified,
    stagedContacts := [] }

/-- Claim C6, witness: extraction suggests `o1`, context is locked to
`o2`; the saved activity references `o2`. -/
theorem locked_context_wins_witness :
    ("o2" : String) ≠ "" ∧
    (handleSave (fun _ => "f1") (some "o2") none "2024-01-02"
        (handleAutoFill "2024-01-02" (some "o2") [] suggestionO1
          lockedModalState)).map
        (fun sr => (sr.activity.opportunityId, sr.newOpportunity)) =
      some ("o2", none) := by
  have h := locked_context_wins "2024-01-02" "o2" [] suggestionO1
    (handleAutoFill "2024-01-02" (some "o2") [] suggestionO1
      lockedModalState) none (fun _ => "f1") (by decide)
  exact ⟨by decide, h.2.trans (by decide)⟩

/-- Claim C7 (confirmed): finalization is rejected with no payload and
no effect on the `App` state whenever the mandatory-field check fails —
the title or date is blank, or none of the three opportunity conditions
holds (an existing opportunity selected, a new one staged with an
employer, or a locked context). -/
theorem save_rejected_no_side_effect (fresh : Nat → String)
    (lock : Option String) (iA : Option Activity) (today : String)
    (st : ModalState)
    (hfail : st.formData.title = "" ∨ st.formData.date = "" ∨
      (st.selectedOpId = "" ∧
        ¬(st.isNewOp = true ∧ st.newOpEmployer ≠ "") ∧
        optTruthy lock = false)) :
    handleSave fresh lock iA today st = none ∧
    ∀ s : AppState, trySave fresh lock iA today st s = s := by
  have hnone : handleSave fresh lock iA today st = none := by
    unfold handleSave
    rcases hfail with h | h | ⟨hsel, hne, hlock⟩
    · rw [if_pos (Or.inl h)]
    · rw [if_pos (Or.inr h)]
    · by_cases ht : st.formData.title = "" ∨ st.formData.date = ""
      · rw [if_pos ht]
      · rw [if_neg ht]
        by_cases hn : st.isNewOp = true
        · have hemp : st.newOpEmployer = "" := by
            by_contra hne2
            exact hne ⟨hn, hne2⟩
          have h2 : ¬(st.isNewOp = false ∧ st.selectedOpId = "" ∧
              optTruthy lock = false) := by
            rintro ⟨hf, -, -⟩
            rw [hn] at hf
            cases hf
          rw [if_neg h2, if_pos ⟨hn, hemp⟩]
        · have hn' : st.isNewOp = false := by
            cases hb : st.isNewOp
            · rfl
            · exact absurd hb hn
          rw [if_pos ⟨hn', hsel, hlock⟩]
  refine ⟨hnone, fun s => ?_⟩
  unfold trySave
  rw [hnone]

/-- A modal state failing the mandatory-field check: blank title. -/
def rejectedModalState : ModalState :=
  { lockedModalState with
    formData := { filledFormData with title := "" } }

/-- Claim C7, witness: a blank title is rejected and the `App` state —
here a store holding one opportunity — is untouched. -/
theorem save_rejected_no_side_effect_witness :
    handleSave (fun _ => "f1") none none "2024-01-02"
      rejectedModalState = none ∧
    trySave (fun _ => "f1") none none "2024-01-02" rejectedModalState
      oneOppState = oneOppState := by
  have h := save_rejected_no_side_effect (fun _ => "f1") none none
    "2024-01-02" rejectedModalState (Or.inl rfl)
  exact ⟨h.1, h.2 oneOppState⟩

/-- Claim C8 (confirmed): an extracted candidate whose name matches an
existing Contact case-insensitively contributes that Contact's
identifier to the selected set, the selected set is duplicate free (so
the identifier appears exactly once even when the candidate is listed
several times), and the staged drafts grow by exactly the non-matching
candidates — a matching candidate is never staged. -/
theorem contact_dedup (today : String) (lock : Option String)
    (cts : List Contact) (r : ParseResult) (st : ModalState)
    (c : ExtractedContact) (m : Contact)
    (hdesc : ¬ jsTrim st.formData.description = "")
    (hc : c ∈ r.contacts)
    (hm : contactMatch cts c = some m) :
    m.id ∈ (handleAutoFill today lock cts r st).formData.contactIds ∧
    (handleAutoFill today lock cts r st).formData.contactIds.Nodup ∧
    (handleAutoFill today lock cts r st).formData.contactIds.count m.id
      = 1 ∧
    (handleAutoFill today lock cts r st).stagedContacts =
      st.stagedContacts ++
        r.contacts.filter (fun c' => (contactMatch cts c').isNone) := by
  have hlen : 0 < r.contacts.length :=
    List.length_pos.mpr (List.ne_nil_of_mem hc)
  have hmemM : m.id ∈ r.contacts.filterMap
      (fun c' => (contactMatch cts c').map (fun mm => mm.id)) :=
    List.mem_filterMap.mpr ⟨c, hc, by rw [hm]; rfl⟩
  have hmem : m.id ∈ jsSetDedup
      ((autoFillActivity today r (autoFillOpp lock r st)).formData.contactIds
        ++ r.contacts.filterMap
          (fun c' => (contactMatch cts c').map (fun mm => mm.id))) :=
    (mem_jsSetDedup _ _).mpr (List.mem_append_right _ hmemM)
  have hnodup := jsSetDedup_nodup
    ((autoFillActivity today r (autoFillOpp lock r st)).formData.contactIds
      ++ r.contacts.filterMap
        (fun c' => (contactMatch cts c').map (fun mm => mm.id)))
  have hstg :
      (autoFillActivity today r (autoFillOpp lock r st)).stagedContacts =
        st.stagedContacts := by
    rw [(autoFillActivity_fields today r (autoFillOpp lock r st)).2,
      (autoFillOpp_fields lock r st).2]
  unfold handleAutoFill
  rw [if_neg hdesc]
  unfold autoFillContacts
  rw [if_pos hlen]
  refine ⟨hmem, hnodup, List.count_eq_one_of_mem hnodup hmem, ?_⟩
  show (autoFillActivity today r (autoFillOpp lock r st)).stagedContacts
      ++ _ = _
  rw [hstg]

/-- The existing contact of the spec's scenario, stored with a
lower-case name. -/
def sarahContact : Contact :=
  { id := "c1", name := "sarah", role := "Recruiter", email := none,
    phone := none, company := "Acme", notes := none }

/-- The extraction result of the spec's scenario: the same contact name
with a case difference, listed twice. -/
def sarahResult : ParseResult :=
  { isNewOpportunity := false, opportunityMatchId := none,
    oppEmployer := none, oppPosition := none, oppRole := none,
    oppStatus := none, actTitle := none, actType := none, actDate := none,
    actFollowUpAction := none, actFollowUpDate := none,
    contacts := [⟨"Sarah", "", "", none⟩, ⟨"Sarah", "", "", none⟩] }

/-- Claim C8, witness: extraction lists "Sarah" twice against an
existing "sarah" — the identifier is selected exactly once and nothing
is staged. -/
theorem contact_dedup_witness :
    "c1" ∈ (handleAutoFill "2024-01-02" none [sarahContact] sarahResult
      lockedModalState).formData.contactIds ∧
    (handleAutoFill "2024-01-02" none [sarahContact] sarahResult
      lockedModalState).formData.contactIds.count "c1" = 1 ∧
    (handleAutoFill "2024-01-02" none [sarahContact] sarahResult
      lockedModalState).stagedContacts = [] := by
  have h := contact_dedup "2024-01-02" none [sarahContact] sarahResult
    lockedModalState ⟨"Sarah", "", "", none⟩ sarahContact (by decide)
    (by decide) (by decide)
  exact ⟨h.1, h.2.2.1, h.2.2.2.trans (by decide)⟩

/-- Inverting a successful `handleSave`. -/
theorem handleSave_some (fresh : Nat → String) (lock : Option String)
    (iA : Option Activity) (today : String) (st : ModalState)
    (sr : SaveResult)
    (h : handleSave fresh lock iA today st = some sr) :
    sr = buildSave fresh lock iA today st := by
  unfold handleSave at h
  split at h
  · exact absurd h (by simp)
  · split at h
    · exact absurd h (by simp)
    · split at h
      · exact absurd h (by simp)
      · injection h with h'
        exact h'.symm

/-- `enumFrom` preserves length. -/
theorem enumFrom_length' {α : Type} :
    ∀ (l : List α) (n : Nat), (l.enumFrom n).length = l.length := by
  intro l
  induction l with
  | nil => intro n; rfl
  | cons x xs ih =>
    intro n
    show (xs.enumFrom (n + 1)).length + 1 = xs.length + 1
    rw [ih]

/-- Field fallbacks of every promoted contact, pointwise along the
staged list. -/
theorem promote_forall2 (fresh : Nat → String) (k : Nat)
    (nOp : Option Opportunity) :
    ∀ (l : List ExtractedContact) (n : Nat),
      List.Forall₂ (fun (cc : Contact) (c : ExtractedContact) =>
          cc.name = (if c.name = "" then "Unknown" else c.name) ∧
          cc.role = (if c.role = "" then "Contact" else c.role) ∧
          cc.company = (if c.company = "" then
              (match nOp with
               | some o => o.employer
               | none => "Unknown")
            else c.company))
        ((l.enumFrom n).map (promoteContact fresh k nOp)) l := by
  intro l
  induction l with
  | nil => intro n; exact List.Forall₂.nil
  | cons c cs ih =>
    intro n
    exact List.Forall₂.cons ⟨rfl, rfl, rfl⟩ (ih (n + 1))

/-- The promoted identifiers are exactly the fresh supply at offsets
`k + n, k + n + 1, …`. -/
theorem promote_ids (fresh : Nat → String) (k : Nat)
    (nOp : Option Opportunity) :
    ∀ (l : List ExtractedContact) (n : Nat),
      ((l.enumFrom n).map (promoteContact fresh k nOp)).map
          (fun cc => cc.id) =
        (List.range' n l.length).map (fun i => fresh (k + i)) := by
  intro l
  induction l with
  | nil => intro n; rfl
  | cons c cs ih =>
    intro n
    show fresh (k + n) :: _ = fresh (k + n) :: _
    exact congrArg (List.cons (fresh (k + n))) (ih (n + 1))

/-- Promoted contacts are always appended to the contact collection by
`handleSaveActivity`. -/
theorem handleSaveActivity_contacts (iA : Option Activity)
    (d : SaveResult) (s : AppState) :
    (handleSaveActivity iA d s).contacts = s.contacts ++ d.newContacts := by
  unfold handleSaveActivity
  by_cases hlen : 0 < d.newContacts.length
  · cases hop : d.newOpportunity <;> cases hiA : iA <;> simp [hlen]
  · have hnil : d.newContacts = [] := by
      cases hcn : d.newContacts with
      | nil => rfl
      | cons x xs => rw [hcn] at hlen; simp at hlen
    cases hop : d.newOpportunity <;> cases hiA : iA <;> simp [hlen, hnil]

/-- Claim C9 (corrected, amended statement): every staged new Contact
promoted at finalization receives its own identifier from the fresh
supply — pairwise distinct for an injective supply, and distinct from a
freshly created opportunity's identifier; an absent name falls back to
"Unknown", an absent role falls back to "Contact" (not "Unknown" — see
the counterexample), an absent company falls back to the staged new
opportunity's employer when one is being created and to "Unknown"
otherwise; and the promoted contacts are appended to the Contact
collection. -/
theorem contact_promotion (fresh : Nat → String) (lock : Option String)
    (iA : Option Activity) (today : String) (st : ModalState)
    (sr : SaveResult) (s : AppState)
    (hinj : Function.Injective fresh)
    (h : handleSave fresh lock iA today st = some sr) :
    sr.newContacts.length = st.stagedContacts.length ∧
    List.Forall₂ (fun (cc : Contact) (c : ExtractedContact) =>
        cc.name = (if c.name = "" then "Unknown" else c.name) ∧
        cc.role = (if c.role = "" then "Contact" else c.role) ∧
        cc.company = (if c.company = "" then
            (match sr.newOpportunity with
             | some o => o.employer
             | none => "Unknown")
          else c.company)) sr.newContacts st.stagedContacts ∧
    (sr.newContacts.map (fun cc => cc.id)).Nodup ∧
    (∀ o : Opportunity, sr.newOpportunity = some o →
      o.id ∉ sr.newContacts.map (fun cc => cc.id)) ∧
    (handleSaveActivity iA sr s).contacts = s.contacts ++ sr.newContacts := by
  have hsr := handleSave_some fresh lock iA today st sr h
  subst hsr
  refine ⟨?_, ?_, ?_, ?_, handleSaveActivity_contacts iA _ s⟩
  · show ((st.stagedContacts.enumFrom 0).map _).length = _
    rw [List.length_map, enumFrom_length']
  · exact promote_forall2 fresh (kOf lock st)
      (newOpOf fresh lock today st) st.stagedContacts 0
  · show (((st.stagedContacts.enumFrom 0).map _).map _).Nodup
    rw [promote_ids fresh (kOf lock st) (newOpOf fresh lock today st)
      st.stagedContacts 0]
    refine List.Nodup.map ?_ (List.nodup_range' _ _)
    intro a b hab
    exact Nat.add_left_cancel (hinj hab)
  · intro o ho
    have hk : kOf lock st = 1 ∧ o.id = fresh 0 := by
      have ho2 : newOpOf fresh lock today st = some o := ho
      clear ho
      rename' ho2 => ho
      unfold newOpOf at ho
      split at ho
      · next hcr =>
        injection ho with ho'
        refine ⟨by unfold kOf; rw [if_pos hcr], ?_⟩
        rw [← ho']
      · exact absurd ho (by simp)
    intro hmem
    have hmem' : o.id ∈ (List.range' 0 st.stagedContacts.length).map
        (fun i => fresh (kOf lock st + i)) := by
      rw [← promote_ids fresh (kOf lock st)
        (newOpOf fresh lock today st) st.stagedContacts 0]
      exact hmem
    rcases List.mem_map.mp hmem' with ⟨i, hi, hfi⟩
    rw [hk.2] at hfi
    have h0 := hinj hfi
    rw [hk.1] at h0
    omega

/-- An injective fresh-identifier supply. -/
def freshW : Nat → String := fun n => String.mk (List.replicate n 'x')

/-- `freshW` is injective. -/
theorem freshW_injective : Function.Injective freshW := by
  intro a b h
  have h2 : List.replicate a 'x' = List.replicate b 'x' :=
    congrArg String.data h
  have h3 := congrArg List.length h2
  simpa using h3

/-- A modal state with an existing opportunity selected and two staged
contact drafts: one with name only, one with role and company only. -/
def stagedModalState : ModalState :=
  { formData := filledFormData,
    isNewOp := false, selectedOpId := "o1", newOpEmployer := "",
    newOpPosition := "", newOpRole := "", newOpStatus := .identified,
    stagedContacts := [⟨"Bob", "", "", none⟩, ⟨"", "HR", "Acme", none⟩] }

/-- Claim C9, counterexample to the original statement: a staged
contact whose role the extraction left absent is promoted with role
"Contact", not "Unknown" (the "Unknown" fallback applies to the name,
and to the company only when no new opportunity is staged). -/
theorem promoted_role_fallback :
    (handleSave freshW none none "2024-01-02" stagedModalState).map
        (fun sr => sr.newContacts.map (fun cc => cc.role)) =
      some ["Contact", "HR"] ∧
    (handleSave freshW none none "2024-01-02" stagedModalState).map
        (fun sr => sr.newContacts.map (fun cc => cc.name)) =
      some ["Bob", "Unknown"] ∧
    ("Contact" : String) ≠ "Unknown" := by
  exact ⟨rfl, rfl, by decide⟩

/-- Claim C9, witness for the amended theorem. -/
theorem contact_promotion_witness :
    (buildSave freshW none none "2024-01-02"
      stagedModalState).newContacts.length =
      stagedModalState.stagedContacts.length ∧
    ((buildSave freshW none none "2024-01-02"
      stagedModalState).newContacts.map (fun cc => cc.id)).Nodup ∧
    (handleSaveActivity none
        (buildSave freshW none none "2024-01-02" stagedModalState)
        initialAppState).contacts =
      (buildSave freshW none none "2024-01-02"
        stagedModalState).newContacts := by
  have h := contact_promotion freshW none none "2024-01-02"
    stagedModalState
    (buildSave freshW none none "2024-01-02" stagedModalState)
    initialAppState freshW_injective (by rfl)
  exact ⟨h.1, h.2.2.1, h.2.2.2.2.trans (by simp [initialAppState])⟩
